import Mathlib

/-!
Shallow embedding of `chain/get_ancestors.go` from go-filecoin: ancestor
collection (`GetRecentAncestors`, `CollectTipSetsOfHeightAtLeast`,
`CollectAtMostNTipSets`) and the common-ancestor search
(`FindCommonAncestor`, `iterToHeightOrLower`).

The backward chain iterator (`IterAncestors` / `TipsetIterator`) and the
`TipSet` / `TipSetKey` data types are external to the shown source; they are
modelled from the specification (§3, §4.1).  Unbounded Go loops are embedded
with an explicit fuel parameter; exhausting the fuel is reported as a
distinguished `outOfFuel` outcome, and an out-of-range slice index (a Go
panic) as `panicked`.  Machine integers: heights are `uint64` in Go, modelled
as `Nat`; the one place where `uint64` wrap-around matters
(`oldHeight - uint64(1)` in `FindCommonAncestor`) is modelled explicitly
modulo `2^64`.
-/

namespace GetAncestors

/-- Modelled from the spec: a block identifier (content hash); only equality
is relevant to this core. -/
abbrev Cid := Nat

/-- Modelled from the spec: a `TipSetKey` is an ordered, deduplicated
sequence of block identifiers; equality is plain sequence equality.  The
empty key marks genesis parents. -/
abbrev TipSetKey := List Cid

/-- Modelled from the spec: a `TipSet` has a key, a height (`uint64` in Go;
`none` models a tipset whose height cannot be computed, the
"malformed-height" error case), and a parent key (empty means genesis). -/
structure TipSet where
  key : TipSetKey
  height : Option Nat
  parents : TipSetKey
deriving DecidableEq, Repr

/-- The error values that the embedded functions can surface:
`configLookbackZero` is the `lookback must be greater than 0` error,
`storeError k` a failure of `ReadStore.GetTipSet` at key `k`,
`heightError k` a failure of `TipSet.Height` for the tipset keyed `k`, and
`iterComplete` the dedicated `errIterComplete` value. -/
inductive ChainError where
  | configLookbackZero
  | storeError (key : TipSetKey)
  | heightError (key : TipSetKey)
  | iterComplete
deriving DecidableEq, Repr

/-- Modelled from the spec: the read-only chain store; `none` models a
`GetTipSet` store failure at that key. -/
abbrev Store := TipSetKey → Option TipSet

/-- Result of an embedded Go computation: a value, a returned error, a Go
panic (out-of-range slice index), or exhaustion of the loop fuel. -/
inductive Outcome (α : Type) where
  | ok (a : α)
  | err (e : ChainError)
  | panicked
  | outOfFuel
deriving DecidableEq, Repr

/-- Map over the `ok` branch of an `Outcome`. -/
def Outcome.mapO {α β : Type} (g : α → β) : Outcome α → Outcome β
  | .ok a => .ok (g a)
  | .err e => .err e
  | .panicked => .panicked
  | .outOfFuel => .outOfFuel

/-- `TipSet.Height()`: `ok` its height, or the malformed-height error. -/
def TipSet.heightE (ts : TipSet) : Except ChainError Nat :=
  match ts.height with
  | some h => .ok h
  | none => .error (.heightError ts.key)

/-- Height with default 0; agrees with `heightE` on well-formed tipsets. -/
def TipSet.heightD (ts : TipSet) : Nat := ts.height.getD 0

/-- `TipSet.Equals`: per the spec two tipsets are equal iff their keys are. -/
def TipSet.equals (a b : TipSet) : Bool := a.key = b.key

/-- Modelled from the spec (§4.1): the `TipsetIterator` cursor holds the
store, the current tipset (`Value()`), and the completion flag
(`Complete()`). -/
structure TipsetIterator where
  store : Store
  value : TipSet
  complete : Bool

/-- Modelled from the spec (§4.1): `Next()` reads the current tipset's parent
key; if empty the iterator completes with no error, otherwise the parent key
is resolved through the store, a lookup failure being propagated as a store
error. -/
def TipsetIterator.next (it : TipsetIterator) : Except ChainError TipsetIterator :=
  if it.value.parents = [] then .ok { it with complete := true }
  else
    match it.store it.value.parents with
    | some ts => .ok { it with value := ts }
    | none => .error (.storeError it.value.parents)

/-- Modelled from the spec: `IterAncestors` positions a fresh, non-complete
iterator at `base`. -/
def iterAncestors (store : Store) (base : TipSet) : TipsetIterator :=
  { store := store, value := base, complete := false }

/-- The loop of `CollectTipSetsOfHeightAtLeast` (get_ancestors.go:96-114)
with its accumulator `ret` explicit: while the iterator is not complete,
compute the current height (propagating a height error), stop returning
`ret` as soon as the height drops below `minHeight`, otherwise append the
current tipset and advance (propagating a store error). -/
def collectAux (minHeight : Nat) : Nat → TipsetIterator → List TipSet → Outcome (List TipSet)
  | 0, _, _ => .outOfFuel
  | fuel + 1, iterator, ret =>
    if iterator.complete then .ok ret
    else
      match iterator.value.heightE with
      | .error e => .err e
      | .ok h =>
        if h < minHeight then .ok ret
        else
          match iterator.next with
          | .error e => .err e
          | .ok iterator2 => collectAux minHeight fuel iterator2 (ret ++ [iterator.value])

/-- `CollectTipSetsOfHeightAtLeast` (get_ancestors.go:96-114). -/
def collectTipSetsOfHeightAtLeast (fuel : Nat) (iterator : TipsetIterator)
    (minHeight : Nat) : Outcome (List TipSet) :=
  collectAux minHeight fuel iterator []

/-- `CollectAtMostNTipSets` (get_ancestors.go:118-128): up to `n` tipsets,
the current value being appended before each advance; an advance error
aborts the whole call. -/
def collectAtMostNTipSets : TipsetIterator → Nat → Except ChainError (List TipSet)
  | _, 0 => .ok []
  | iterator, n + 1 =>
    if iterator.complete then .ok []
    else
      match iterator.next with
      | .error e => .error e
      | .ok iterator2 =>
        (collectAtMostNTipSets iterator2 n).map (fun rest => iterator.value :: rest)

/-- `childBH.Sub(ancestorRoundsNeeded)` followed by the clamp to 0
(get_ancestors.go:60-63); `BlockHeight` is an arbitrary-precision integer in
Go, so the subtraction is exact and then compared with 0. -/
def earliestAncestorHeight (childBH ancestorRoundsNeeded : Nat) : Nat :=
  let d : Int := (childBH : Int) - (ancestorRoundsNeeded : Int)
  if d < 0 then 0 else d.toNat

/-- `GetRecentAncestors` (get_ancestors.go:53-92).  The indexing
`provingPeriodAncestors[len(provingPeriodAncestors)-1]` is embedded through
`List.getLast?`, an empty list giving the Go out-of-range panic. -/
def getRecentAncestors (fuel : Nat) (store : Store) (base : TipSet)
    (childBH ancestorRoundsNeeded lookback : Nat) : Outcome (List TipSet) :=
  if lookback = 0 then .err .configLookbackZero
  else
    match collectTipSetsOfHeightAtLeast fuel (iterAncestors store base)
        (earliestAncestorHeight childBH ancestorRoundsNeeded) with
    | .err e => .err e
    | .panicked => .panicked
    | .outOfFuel => .outOfFuel
    | .ok provingPeriodAncestors =>
      match provingPeriodAncestors.getLast? with
      | none => .panicked
      | some lastPP =>
        if lastPP.parents = [] then .ok provingPeriodAncestors
        else
          match store lastPP.parents with
          | none => .err (.storeError lastPP.parents)
          | some lookBackTS =>
            match collectAtMostNTipSets (iterAncestors store lookBackTS) lookback with
            | .error e => .err e
            | .ok extraRandomnessAncestors =>
              .ok (provingPeriodAncestors ++ extraRandomnessAncestors)

/-- `h - 1` on a Go `uint64`: wraps to `2^64 - 1` at `h = 0`. -/
def sub1U64 (h : Nat) : Nat := (h + (2 ^ 64 - 1)) % 2 ^ 64

/-- `iterToHeightOrLower` (get_ancestors.go:180-198): step the iterator until
its height is at most `endHeight`; a complete iterator gives
`errIterComplete`, height and store errors are propagated. -/
def iterToHeightOrLower : Nat → TipsetIterator → Nat → Outcome TipsetIterator
  | 0, _, _ => .outOfFuel
  | fuel + 1, iter, endHeight =>
    if iter.complete then .err .iterComplete
    else
      match iter.value.heightE with
      | .error e => .err e
      | .ok height =>
        if height ≤ endHeight then .ok iter
        else
          match iter.next with
          | .error e => .err e
          | .ok iter2 => iterToHeightOrLower fuel iter2 endHeight

/-- `FindCommonAncestor` (get_ancestors.go:133-174): compare the two iterator
values; equal tipsets are returned, otherwise the higher iterator is moved to
the lower height, and at equal heights both are moved below
`height - uint64(1)` (which wraps at height 0). -/
def findCommonAncestor : Nat → TipsetIterator → TipsetIterator → Outcome TipSet
  | 0, _, _ => .outOfFuel
  | fuel + 1, oldIter, newIter =>
    let old := oldIter.value
    let newTS := newIter.value
    match old.heightE with
    | .error e => .err e
    | .ok oldHeight =>
      match newTS.heightE with
      | .error e => .err e
      | .ok newHeight =>
        if old.equals newTS then .ok old
        else if oldHeight < newHeight then
          match iterToHeightOrLower fuel newIter oldHeight with
          | .ok newIter2 => findCommonAncestor fuel oldIter newIter2
          | .err e => .err e
          | .panicked => .panicked
          | .outOfFuel => .outOfFuel
        else if newHeight < oldHeight then
          match iterToHeightOrLower fuel oldIter newHeight with
          | .ok oldIter2 => findCommonAncestor fuel oldIter2 newIter
          | .err e => .err e
          | .panicked => .panicked
          | .outOfFuel => .outOfFuel
        else
          match iterToHeightOrLower fuel oldIter (sub1U64 oldHeight) with
          | .ok oldIter2 =>
            match iterToHeightOrLower fuel newIter (sub1U64 newHeight) with
            | .ok newIter2 => findCommonAncestor fuel oldIter2 newIter2
            | .err e => .err e
            | .panicked => .panicked
            | .outOfFuel => .outOfFuel
          | .err e => .err e
          | .panicked => .panicked
          | .outOfFuel => .outOfFuel

/-! ### Well-formed chain predicates

Executable predicates describing the chain shape the spec assumes (§3): a
list of tipsets linked through the store by parent keys, with computable,
strictly decreasing heights, ending at a genesis tipset (empty parents). -/

/-- Consecutive elements are linked: each non-final element has a non-empty
parent key that the store resolves to the next element. -/
def linkedChain (store : Store) : List TipSet → Bool
  | [] => true
  | [_] => true
  | t :: u :: rest =>
    decide (t.parents ≠ []) && decide (store t.parents = some u) && linkedChain store (u :: rest)

/-- Every element has a computable height. -/
def heightsOk : List TipSet → Bool
  | [] => true
  | t :: rest => t.height.isSome && heightsOk rest

/-- Heights are strictly decreasing along the list. -/
def heightsDesc : List TipSet → Bool
  | [] => true
  | [_] => true
  | t :: u :: rest => decide (u.heightD < t.heightD) && heightsDesc (u :: rest)

/-- The collection predicate of `CollectTipSetsOfHeightAtLeast`. -/
def heightAtLeast (minHeight : Nat) (ts : TipSet) : Bool :=
  decide (minHeight ≤ ts.heightD)

/-! ### Concrete fixtures -/

/-- The tipset at height `n` of the no-null-block test chain: key `[n]`,
parent key `[n-1]`, genesis at height 0. -/
def mkTS (n : Nat) : TipSet := ⟨[n], some n, if n = 0 then [] else [n - 1]⟩

/-- Store holding the ten tipsets of heights 0..9. -/
def store10 : Store := fun k =>
  match k with
  | [n] => if n ≤ 9 then some (mkTS n) else none
  | _ => none

/-- The chain of 10 tipsets at heights 9 down to 0. -/
def chain10 : List TipSet :=
  [mkTS 9, mkTS 8, mkTS 7, mkTS 6, mkTS 5, mkTS 4, mkTS 3, mkTS 2, mkTS 1, mkTS 0]

/-- The chain of 3 tipsets at heights 2 down to 0. -/
def chain3 : List TipSet := [mkTS 2, mkTS 1, mkTS 0]

/-- A genesis tipset at height 0 with key `[1]`. -/
def genesisA : TipSet := ⟨[1], some 0, []⟩

/-- A distinct genesis tipset at height 0 with key `[2]`. -/
def genesisB : TipSet := ⟨[2], some 0, []⟩

/-- A store holding nothing. -/
def emptyStore : Store := fun _ => none

/-- A genesis tipset sitting at height 5 (a chain whose root is above the
other chain's current height, so its iterator completes during the search). -/
def tsHighGenesis : TipSet := ⟨[10], some 5, []⟩

/-- A tipset at height 3 whose parent is `tsB0`. -/
def tsB1 : TipSet := ⟨[20], some 3, [21]⟩

/-- A genesis tipset at height 0 with key `[21]`. -/
def tsB0 : TipSet := ⟨[21], some 0, []⟩

/-- A store holding only `tsB0`. -/
def storeB : Store := fun k => if k = [21] then some tsB0 else none

/-- A tipset at height 5 whose parent key `[77]` is absent from `storeB`. -/
def tsBadParent : TipSet := ⟨[30], some 5, [77]⟩

/-- A tipset whose height cannot be computed. -/
def tsNoHeight : TipSet := ⟨[40], none, []⟩

/-- A tipset at height 4 whose parent is `tsC0`. -/
def tsC1 : TipSet := ⟨[50], some 4, [51]⟩

/-- A tipset at height 3 whose parent key `[99]` is missing from `storeC`. -/
def tsC0 : TipSet := ⟨[51], some 3, [99]⟩

/-- A store holding only `tsC0`, so that the walk fails after collecting
`tsC1` and `tsC0`. -/
def storeC : Store := fun k => if k = [51] then some tsC0 else none

/-! ### Helper lemmas -/

/-- The accumulator of the collection loop is a pure prefix: running the loop
with accumulator `acc` is running it with `[]` and prepending `acc`. -/
theorem collectAux_acc (minHeight : Nat) :
    ∀ (fuel : Nat) (it : TipsetIterator) (acc : List TipSet),
      collectAux minHeight fuel it acc
        = Outcome.mapO (fun l => acc ++ l) (collectAux minHeight fuel it []) := by
  intro fuel
  induction fuel with
  | zero => intro it acc; rfl
  | succ fuel ih =>
    intro it acc
    simp only [collectAux]
    cases hc : it.complete with
    | true => simp [Outcome.mapO]
    | false =>
      simp only [Bool.false_eq_true, if_false]
      cases hh : it.value.heightE with
      | error e => rfl
      | ok h =>
        by_cases hlt : h < minHeight
        · simp [hlt, Outcome.mapO]
        · simp only [hlt, if_false]
          cases hn : it.next with
          | error e => rfl
          | ok it2 =>
            dsimp only
            rw [ih it2 (acc ++ [it.value]), ih it2 ([] ++ [it.value])]
            cases collectAux minHeight fuel it2 [] <;>
              simp [Outcome.mapO]

/-- On a linked, genesis-terminated chain with computable heights and enough
fuel, the collection loop returns exactly the longest initial segment of the
chain satisfying the height threshold. -/
theorem collect_chain (store : Store) (minHeight : Nat) :
    ∀ (rest : List TipSet) (t : TipSet) (fuel : Nat),
      linkedChain store (t :: rest) = true →
      heightsOk (t :: rest) = true →
      ((t :: rest).getLast (List.cons_ne_nil t rest)).parents = [] →
      (t :: rest).length + 1 ≤ fuel →
      collectAux minHeight fuel (iterAncestors store t) []
        = .ok ((t :: rest).takeWhile (heightAtLeast minHeight)) := by
  intro rest
  induction rest with
  | nil =>
    intro t fuel _ hh hg hf
    simp only [heightsOk, Bool.and_eq_true] at hh
    obtain ⟨h, ht⟩ := Option.isSome_iff_exists.mp hh.1
    obtain ⟨f, rfl⟩ : ∃ f, fuel = f + 2 := ⟨fuel - 2, by simp at hf; omega⟩
    simp only [List.getLast] at hg
    by_cases hlt : h < minHeight
    · simp [collectAux, iterAncestors, TipSet.heightE, ht, hlt, List.takeWhile_cons,
        heightAtLeast, TipSet.heightD, Nat.not_le.mpr hlt]
    · simp [collectAux, iterAncestors, TipSet.heightE, ht, hlt, TipsetIterator.next, hg,
        List.takeWhile_cons, heightAtLeast, TipSet.heightD, Nat.not_lt.mp hlt]
  | cons u rest ih =>
    intro t fuel hl hh hg hf
    simp only [linkedChain, Bool.and_eq_true, decide_eq_true_eq] at hl
    obtain ⟨⟨hp, hsu⟩, hl'⟩ := hl
    simp only [heightsOk, Bool.and_eq_true] at hh
    obtain ⟨h, ht⟩ := Option.isSome_iff_exists.mp hh.1
    rw [List.getLast_cons (List.cons_ne_nil u rest)] at hg
    obtain ⟨f, rfl⟩ : ∃ f, fuel = f + 1 := ⟨fuel - 1, by omega⟩
    have hf' : (u :: rest).length + 1 ≤ f := by simp at hf ⊢; omega
    by_cases hlt : h < minHeight
    · simp [collectAux, iterAncestors, TipSet.heightE, ht, hlt, List.takeWhile_cons,
        heightAtLeast, TipSet.heightD, Nat.not_le.mpr hlt]
    · have hnext : (iterAncestors store t).next = .ok (iterAncestors store u) := by
        simp [TipsetIterator.next, iterAncestors, hp, hsu]
      have hstep : collectAux minHeight (f + 1) (iterAncestors store t) []
          = collectAux minHeight f (iterAncestors store u) [t] := by
        simp only [iterAncestors] at hnext ⊢
        simp [collectAux, TipSet.heightE, ht, hlt, hnext]
      have hh2 : heightsOk (u :: rest) = true := by
        simp [heightsOk, hh.2.1, hh.2.2]
      rw [hstep, collectAux_acc minHeight f (iterAncestors store u) [t],
        ih u f hl' hh2 hg hf']
      simp [Outcome.mapO, List.takeWhile_cons, heightAtLeast, TipSet.heightD, ht,
        Nat.not_lt.mp hlt]

/-- A complete iterator yields the empty collection for every `n`. -/
theorem collectAtMostN_complete (it : TipsetIterator) (hc : it.complete = true) :
    ∀ n : Nat, collectAtMostNTipSets it n = .ok []
  | 0 => rfl
  | n + 1 => by simp [collectAtMostNTipSets, hc]

/-- One unfolding of the `CollectAtMostNTipSets` loop on a live iterator. -/
theorem collectAtMostN_step (it : TipsetIterator) (hc : it.complete = false) (n : Nat) :
    collectAtMostNTipSets it (n + 1)
      = match it.next with
        | .error e => .error e
        | .ok it2 => (collectAtMostNTipSets it2 n).map (fun rest => it.value :: rest) := by
  simp [collectAtMostNTipSets, hc]

/-- On a linked, genesis-terminated chain, `CollectAtMostNTipSets` returns
exactly the first `n` elements of the chain (all of it when shorter). -/
theorem collectAtMostN_chain (store : Store) :
    ∀ (rest : List TipSet) (t : TipSet) (n : Nat),
      linkedChain store (t :: rest) = true →
      ((t :: rest).getLast (List.cons_ne_nil t rest)).parents = [] →
      collectAtMostNTipSets (iterAncestors store t) n = .ok ((t :: rest).take n) := by
  intro rest
  induction rest with
  | nil =>
    intro t n _ hg
    simp only [List.getLast] at hg
    cases n with
    | zero => rfl
    | succ n =>
      have hnext : (iterAncestors store t).next
          = .ok { store := store, value := t, complete := true } := by
        simp [TipsetIterator.next, iterAncestors, hg]
      rw [collectAtMostN_step _ rfl, hnext]
      dsimp only
      rw [collectAtMostN_complete { store := store, value := t, complete := true } rfl n]
      simp [Except.map, iterAncestors]
  | cons u rest ih =>
    intro t n hl hg
    simp only [linkedChain, Bool.and_eq_true, decide_eq_true_eq] at hl
    obtain ⟨⟨hp, hsu⟩, hl'⟩ := hl
    rw [List.getLast_cons (List.cons_ne_nil u rest)] at hg
    cases n with
    | zero => rfl
    | succ n =>
      have hnext : (iterAncestors store t).next = .ok (iterAncestors store u) := by
        simp [TipsetIterator.next, iterAncestors, hp, hsu]
      rw [collectAtMostN_step _ rfl, hnext]
      dsimp only
      rw [ih u n hl' hg]
      simp [Except.map, iterAncestors, List.take_succ_cons]

/-- If the chain is linked up to its last element but the last element's
parent key is non-empty and absent from the store, collecting exactly the
chain's length aborts with that store error, discarding everything. -/
theorem collectAtMostN_lastFail (store : Store) :
    ∀ (rest : List TipSet) (t : TipSet),
      linkedChain store (t :: rest) = true →
      ((t :: rest).getLast (List.cons_ne_nil t rest)).parents ≠ [] →
      store ((t :: rest).getLast (List.cons_ne_nil t rest)).parents = none →
      collectAtMostNTipSets (iterAncestors store t) (t :: rest).length
        = .error (.storeError ((t :: rest).getLast (List.cons_ne_nil t rest)).parents) := by
  intro rest
  induction rest with
  | nil =>
    intro t _ hp hs
    simp only [List.getLast] at hp hs ⊢
    simp [collectAtMostNTipSets, iterAncestors, TipsetIterator.next, hp, hs]
  | cons u rest ih =>
    intro t hl hp hs
    simp only [linkedChain, Bool.and_eq_true, decide_eq_true_eq] at hl
    obtain ⟨⟨hp0, hsu⟩, hl'⟩ := hl
    rw [List.getLast_cons (List.cons_ne_nil u rest)] at hp hs ⊢
    have hnext : (iterAncestors store t).next = .ok (iterAncestors store u) := by
      simp [TipsetIterator.next, iterAncestors, hp0, hsu]
    rw [List.length_cons, collectAtMostN_step _ rfl, hnext]
    dsimp only
    rw [ih u hl' hp hs]
    rfl

/-- If the starting tipset's height is computable and meets the threshold,
a successful collection is never empty. -/
theorem collect_ok_ne_nil (fuel : Nat) (store : Store) (b : TipSet) (minHeight : Nat)
    (l : List TipSet) (h : Nat) (hb : b.height = some h) (hmin : minHeight ≤ h)
    (hok : collectTipSetsOfHeightAtLeast fuel (iterAncestors store b) minHeight = .ok l) :
    l ≠ [] := by
  cases fuel with
  | zero => simp [collectTipSetsOfHeightAtLeast, collectAux] at hok
  | succ f =>
    simp only [collectTipSetsOfHeightAtLeast, collectAux, iterAncestors] at hok
    rw [show (TipSet.heightE b) = .ok h by simp [TipSet.heightE, hb]] at hok
    simp only [Bool.false_eq_true, if_false, Nat.not_lt.mpr hmin] at hok
    cases hn : TipsetIterator.next { store := store, value := b, complete := false } with
    | error e => rw [hn] at hok; simp at hok
    | ok it2 =>
      rw [hn] at hok
      dsimp only at hok
      rw [collectAux_acc] at hok
      cases hX : collectAux minHeight f it2 [] with
      | ok l' =>
        rw [hX] at hok
        simp only [Outcome.mapO, Outcome.ok.injEq] at hok
        simp [← hok]
      | err e => rw [hX] at hok; simp [Outcome.mapO] at hok
      | panicked => rw [hX] at hok; simp [Outcome.mapO] at hok
      | outOfFuel => rw [hX] at hok; simp [Outcome.mapO] at hok

/-- Strictly-descending heights restrict to any initial segment. -/
theorem heightsDesc_append_left :
    ∀ (l₁ l₂ : List TipSet), heightsDesc (l₁ ++ l₂) = true → heightsDesc l₁ = true
  | [], _, _ => rfl
  | [_], _, _ => rfl
  | t :: u :: l₁, l₂, h => by
    simp only [List.cons_append, heightsDesc, Bool.and_eq_true] at h ⊢
    exact ⟨h.1, heightsDesc_append_left (u :: l₁) l₂ h.2⟩

/-- With threshold 0 the collection predicate holds everywhere. -/
theorem takeWhile_heightAtLeast_zero :
    ∀ l : List TipSet, l.takeWhile (heightAtLeast 0) = l
  | [] => rfl
  | t :: l => by
    rw [List.takeWhile_cons, if_pos (by simp [heightAtLeast]),
      takeWhile_heightAtLeast_zero l]

/-- The collection loop has no out-of-range access: it never panics. -/
theorem collectAux_ne_panicked (minHeight : Nat) :
    ∀ (fuel : Nat) (it : TipsetIterator) (acc : List TipSet),
      collectAux minHeight fuel it acc ≠ .panicked := by
  intro fuel
  induction fuel with
  | zero => intro it acc; simp [collectAux]
  | succ f ih =>
    intro it acc
    simp only [collectAux]
    cases hc : it.complete with
    | true => simp
    | false =>
      simp only [Bool.false_eq_true, if_false]
      cases it.value.heightE with
      | error e => simp
      | ok h =>
        dsimp only
        by_cases hlt : h < minHeight
        · simp [hlt]
        · simp only [hlt, if_false]
          cases it.next with
          | error e => simp
          | ok it2 => dsimp only; exact ih it2 _

/-! ### Claim theorems -/

/-- C3: `CollectTipSetsOfHeightAtLeast` returns exactly the maximal initial
run of ancestors with height at least `minHeight` (the `takeWhile` of the
chain), in descending-height order, and the run is empty only if the
starting tipset's own height is below `minHeight`. -/
theorem claim_C3_collect_maximal_run (store : Store) (t : TipSet) (rest : List TipSet)
    (minHeight fuel : Nat)
    (hl : linkedChain store (t :: rest) = true)
    (hh : heightsOk (t :: rest) = true)
    (hd : heightsDesc (t :: rest) = true)
    (hg : ((t :: rest).getLast (List.cons_ne_nil t rest)).parents = [])
    (hf : (t :: rest).length + 1 ≤ fuel) :
    collectTipSetsOfHeightAtLeast fuel (iterAncestors store t) minHeight
        = .ok ((t :: rest).takeWhile (heightAtLeast minHeight))
      ∧ heightsDesc ((t :: rest).takeWhile (heightAtLeast minHeight)) = true
      ∧ ((t :: rest).takeWhile (heightAtLeast minHeight) = [] → t.heightD < minHeight) := by
  refine ⟨collect_chain store minHeight rest t fuel hl hh hg hf, ?_, ?_⟩
  · refine heightsDesc_append_left _ ((t :: rest).dropWhile (heightAtLeast minHeight)) ?_
    rw [List.takeWhile_append_dropWhile]
    exact hd
  · intro he
    rw [List.takeWhile_cons] at he
    by_cases hp : heightAtLeast minHeight t = true
    · simp [hp] at he
    · simp only [heightAtLeast, decide_eq_true_eq] at hp
      omega

/-- C3 witness: on the 10-tipset chain with threshold 6 the run is the four
tipsets of heights 9, 8, 7, 6. -/
theorem claim_C3_witness :
    collectTipSetsOfHeightAtLeast 12 (iterAncestors store10 (mkTS 9)) 6
        = .ok ((mkTS 9 :: [mkTS 8, mkTS 7, mkTS 6, mkTS 5, mkTS 4, mkTS 3, mkTS 2, mkTS 1,
            mkTS 0]).takeWhile (heightAtLeast 6))
      ∧ heightsDesc ((mkTS 9 :: [mkTS 8, mkTS 7, mkTS 6, mkTS 5, mkTS 4, mkTS 3, mkTS 2, mkTS 1,
            mkTS 0]).takeWhile (heightAtLeast 6)) = true
      ∧ ((mkTS 9 :: [mkTS 8, mkTS 7, mkTS 6, mkTS 5, mkTS 4, mkTS 3, mkTS 2, mkTS 1,
            mkTS 0]).takeWhile (heightAtLeast 6) = [] → (mkTS 9).heightD < 6) :=
  claim_C3_collect_maximal_run store10 (mkTS 9)
    [mkTS 8, mkTS 7, mkTS 6, mkTS 5, mkTS 4, mkTS 3, mkTS 2, mkTS 1, mkTS 0] 6 12
    (by decide) (by decide) (by decide) (by decide) (by decide)

/-- C4: on a linked chain ending at genesis, `CollectAtMostNTipSets` returns
(without error) a sequence of length `min n (remaining tipsets down to
genesis)`, namely the first `n` chain elements. -/
theorem claim_C4_collect_at_most_n (store : Store) (t : TipSet) (rest : List TipSet) (n : Nat)
    (hl : linkedChain store (t :: rest) = true)
    (hg : ((t :: rest).getLast (List.cons_ne_nil t rest)).parents = []) :
    collectAtMostNTipSets (iterAncestors store t) n = .ok ((t :: rest).take n)
      ∧ ((t :: rest).take n).length = min n (t :: rest).length :=
  ⟨collectAtMostN_chain store rest t n hl hg, by simp [List.length_take]⟩

/-- C4 witness: asking for 5 tipsets on the 3-tipset chain yields all 3. -/
theorem claim_C4_witness :
    collectAtMostNTipSets (iterAncestors store10 (mkTS 2)) 5
        = .ok ((mkTS 2 :: [mkTS 1, mkTS 0]).take 5)
      ∧ ((mkTS 2 :: [mkTS 1, mkTS 0]).take 5).length = min 5 (mkTS 2 :: [mkTS 1, mkTS 0]).length :=
  claim_C4_collect_at_most_n store10 (mkTS 2) [mkTS 1, mkTS 0] 5 (by decide) (by decide)

/-- C6: on the chain of 10 tipsets at heights 0..9 with base at height 9,
`childBH = 9`, `ancestorRoundsNeeded = 3`, `lookback = 2`, the
proving-period prefix is the tipsets at heights 9, 8, 7, 6, the randomness
suffix is the tipsets at heights 5 and 4, and `GetRecentAncestors` returns
their concatenation, 6 tipsets in height order 9, 8, 7, 6, 5, 4. -/
theorem claim_C6_concrete_scenario :
    collectTipSetsOfHeightAtLeast 20 (iterAncestors store10 (mkTS 9))
        (earliestAncestorHeight 9 3) = .ok [mkTS 9, mkTS 8, mkTS 7, mkTS 6]
      ∧ collectAtMostNTipSets (iterAncestors store10 (mkTS 5)) 2 = .ok [mkTS 5, mkTS 4]
      ∧ getRecentAncestors 20 store10 (mkTS 9) 9 3 2
          = .ok [mkTS 9, mkTS 8, mkTS 7, mkTS 6, mkTS 5, mkTS 4] :=
  ⟨by decide, by rfl, by decide⟩

/-- C7: the proving-period threshold is `max 0 (childBH - ancestorRoundsNeeded)`
over the integers; in particular it is clamped to 0 whenever
`ancestorRoundsNeeded` exceeds `childBH`. -/
theorem claim_C7_threshold_clamped (childBH ancestorRoundsNeeded : Nat) :
    ((earliestAncestorHeight childBH ancestorRoundsNeeded : Nat) : Int)
        = max 0 ((childBH : Int) - (ancestorRoundsNeeded : Int))
      ∧ (childBH < ancestorRoundsNeeded →
          earliestAncestorHeight childBH ancestorRoundsNeeded = 0) := by
  constructor
  · unfold earliestAncestorHeight
    by_cases h : (childBH : Int) - (ancestorRoundsNeeded : Int) < 0
    · simp only [if_pos h]
      omega
    · simp only [if_neg h]
      omega
  · intro h
    unfold earliestAncestorHeight
    rw [if_pos (by omega)]

/-- C7 witness: at `childBH = 2`, `ancestorRoundsNeeded = 5` the threshold
clamps to 0. -/
theorem claim_C7_witness : 2 < 5 ∧ earliestAncestorHeight 2 5 = 0 :=
  ⟨by decide, (claim_C7_threshold_clamped 2 5).2 (by decide)⟩

/-- C8: `lookback = 0` is rejected with the configuration error for every
store, base, height argument and even with zero fuel, i.e. before any
traversal or store read. -/
theorem claim_C8_lookback_zero (fuel : Nat) (store : Store) (base : TipSet)
    (childBH ancestorRoundsNeeded : Nat) :
    getRecentAncestors fuel store base childBH ancestorRoundsNeeded 0
      = .err .configLookbackZero := rfl

/-- C9: `errIterComplete` is a dedicated error value distinct from every
store error, height error and the configuration error; a completed iterator
makes `iterToHeightOrLower` fail with exactly it; and `FindCommonAncestor`
surfaces it when one chain's iterator is exhausted before convergence, while
store and height errors encountered during the search are propagated
verbatim. -/
theorem claim_C9_dedicated_error :
    (∀ k k' : TipSetKey,
        ChainError.iterComplete ≠ ChainError.storeError k
          ∧ ChainError.iterComplete ≠ ChainError.heightError k'
          ∧ ChainError.iterComplete ≠ ChainError.configLookbackZero)
      ∧ (∀ (store : Store) (ts : TipSet) (endHeight fuel : Nat),
          iterToHeightOrLower (fuel + 1) { store := store, value := ts, complete := true }
            endHeight = .err .iterComplete)
      ∧ findCommonAncestor 4 (iterAncestors storeB tsHighGenesis) (iterAncestors storeB tsB1)
          = .err .iterComplete
      ∧ findCommonAncestor 4 (iterAncestors storeB tsBadParent) (iterAncestors storeB tsB1)
          = .err (.storeError [77])
      ∧ findCommonAncestor 1 (iterAncestors storeB tsNoHeight) (iterAncestors storeB tsB1)
          = .err (.heightError [40]) :=
  ⟨fun _ _ => ⟨by simp, by simp, by simp⟩, fun _ _ _ _ => rfl, by decide, by decide, by decide⟩

/-- C10: `CollectAtMostNTipSets` advances the iterator after every collected
tipset, including the `n`-th: when the chain provides exactly `n` tipsets
but the store lookup of the last one's parent fails, the whole call returns
that store error, discarding all `n` collected tipsets. -/
theorem claim_C10_final_advance_error (store : Store) (t : TipSet) (rest : List TipSet)
    (n : Nat) (hn : n = (t :: rest).length)
    (hl : linkedChain store (t :: rest) = true)
    (hp : ((t :: rest).getLast (List.cons_ne_nil t rest)).parents ≠ [])
    (hs : store ((t :: rest).getLast (List.cons_ne_nil t rest)).parents = none) :
    0 < n ∧
      collectAtMostNTipSets (iterAncestors store t) n
        = .error (.storeError ((t :: rest).getLast (List.cons_ne_nil t rest)).parents) := by
  subst hn
  exact ⟨by simp, collectAtMostN_lastFail store rest t hl hp hs⟩

/-- C10 witness: the two-tipset chain `tsC1 :: tsC0` whose final parent key
`[99]` is missing from the store; collecting 2 returns the store error. -/
theorem claim_C10_witness :
    0 < 2 ∧
      collectAtMostNTipSets (iterAncestors storeC tsC1) 2
        = .error (.storeError ((tsC1 :: [tsC0]).getLast
            (List.cons_ne_nil tsC1 [tsC0])).parents) :=
  claim_C10_final_advance_error storeC tsC1 [tsC0] 2 rfl (by decide) (by decide) (by decide)

/-- C2: whenever the base tipset's height is at least the threshold
`earliestAncestorHeight childBH ancestorRoundsNeeded`, `GetRecentAncestors`
never performs the out-of-range access (the collected proving-period
sequence is non-empty); without that precondition the access does index an
empty sequence on a concrete input (base at height 5 against threshold
100). -/
theorem claim_C2_nonempty_or_panic :
    (∀ (fuel : Nat) (store : Store) (base : TipSet)
        (childBH ancestorRoundsNeeded lookback h : Nat),
        base.height = some h →
        earliestAncestorHeight childBH ancestorRoundsNeeded ≤ h →
        getRecentAncestors fuel store base childBH ancestorRoundsNeeded lookback ≠ .panicked)
      ∧ getRecentAncestors 10 store10 (mkTS 5) 100 0 1 = .panicked := by
  constructor
  · intro fuel store base childBH ancestorRoundsNeeded lookback h hb hmin
    unfold getRecentAncestors
    by_cases hlb : lookback = 0
    · simp [hlb]
    · rw [if_neg hlb]
      cases hC : collectTipSetsOfHeightAtLeast fuel (iterAncestors store base)
          (earliestAncestorHeight childBH ancestorRoundsNeeded) with
      | err e => simp
      | panicked =>
        exact absurd hC (collectAux_ne_panicked _ fuel (iterAncestors store base) [])
      | outOfFuel => simp
      | ok l =>
        have hne : l ≠ [] := collect_ok_ne_nil fuel store base _ l h hb hmin hC
        dsimp only
        cases hL : l.getLast? with
        | none => exact absurd (List.getLast?_eq_none_iff.mp hL) hne
        | some g =>
          dsimp only
          by_cases hpar : g.parents = []
          · simp [hpar]
          · rw [if_neg hpar]
            cases store g.parents with
            | none => simp
            | some lb =>
              dsimp only
              cases collectAtMostNTipSets (iterAncestors store lb) lookback with
              | error e => simp
              | ok extra => simp
  · decide

/-- C2 witness: the precondition holds for the height-9 base against
threshold 6, so the call does not panic. -/
theorem claim_C2_witness : getRecentAncestors 20 store10 (mkTS 9) 9 3 2 ≠ .panicked :=
  claim_C2_nonempty_or_panic.1 20 store10 (mkTS 9) 9 3 2 9 rfl (by decide)

/-- C5: when the collected proving-period ancestors reach genesis (the chain
ends with an empty parent key at height 0 and the threshold is 0), the
result of `GetRecentAncestors` is exactly the proving-period sequence — the
whole chain — with no randomness-lookback suffix appended, independent of
the store outside the chain, and its last element is the genesis tipset of
height 0. -/
theorem claim_C5_genesis_within_window (store : Store) (t : TipSet) (rest : List TipSet)
    (childBH ancestorRoundsNeeded lookback fuel : Nat)
    (hl : linkedChain store (t :: rest) = true)
    (hh : heightsOk (t :: rest) = true)
    (hg : ((t :: rest).getLast (List.cons_ne_nil t rest)).parents = [])
    (h0 : ((t :: rest).getLast (List.cons_ne_nil t rest)).height = some 0)
    (hmin : earliestAncestorHeight childBH ancestorRoundsNeeded = 0)
    (hlb : lookback ≠ 0)
    (hf : (t :: rest).length + 1 ≤ fuel) :
    getRecentAncestors fuel store t childBH ancestorRoundsNeeded lookback = .ok (t :: rest)
      ∧ ((t :: rest).getLast (List.cons_ne_nil t rest)).height = some 0 := by
  refine ⟨?_, h0⟩
  have hC : collectTipSetsOfHeightAtLeast fuel (iterAncestors store t) 0 = .ok (t :: rest) := by
    unfold collectTipSetsOfHeightAtLeast
    rw [collect_chain store 0 rest t fuel hl hh hg hf, takeWhile_heightAtLeast_zero]
  unfold getRecentAncestors
  rw [if_neg hlb, hmin, hC]
  dsimp only
  rw [List.getLast?_eq_getLast (t :: rest) (List.cons_ne_nil t rest)]
  dsimp only
  rw [if_pos hg]

/-- C5 witness: the 3-tipset chain with `childBH = 2`,
`ancestorRoundsNeeded = 5`, `lookback = 1` returns the whole chain, whose
last element has height 0. -/
theorem claim_C5_witness :
    getRecentAncestors 10 store10 (mkTS 2) 2 5 1 = .ok (mkTS 2 :: [mkTS 1, mkTS 0])
      ∧ ((mkTS 2 :: [mkTS 1, mkTS 0]).getLast
          (List.cons_ne_nil (mkTS 2) [mkTS 1, mkTS 0])).height = some 0 :=
  claim_C5_genesis_within_window store10 (mkTS 2) [mkTS 1, mkTS 0] 2 5 1 10
    (by decide) (by decide) (by decide) (by decide) (by decide) (by decide) (by decide)

/-- One iteration of the search loop on two distinct height-0 tipsets makes
no progress: the target height `0 - uint64(1)` wraps to `2^64 - 1`, every
height is at most that, so `iterToHeightOrLower` returns both iterators
unmoved and the loop re-enters in the identical state. -/
theorem findCommonAncestor_height0_step (g : Nat) :
    findCommonAncestor (g + 1 + 1) (iterAncestors emptyStore genesisA)
        (iterAncestors emptyStore genesisB)
      = findCommonAncestor (g + 1) (iterAncestors emptyStore genesisA)
          (iterAncestors emptyStore genesisB) := rfl

/-- C1: refuted — `FindCommonAncestor` does not terminate when the two
iterators hold distinct tipsets at the same height 0: for every amount of
fuel, the loop exhausts it without returning, stepping an iterator, or
failing, because the helper's target height `0 - uint64(1)` wraps to
`2^64 - 1` on the unsigned integer and neither iterator is advanced. -/
theorem claim_C1_height0_no_progress :
    ∀ fuel : Nat,
      findCommonAncestor fuel (iterAncestors emptyStore genesisA)
        (iterAncestors emptyStore genesisB) = .outOfFuel := by
  intro fuel
  induction fuel with
  | zero => rfl
  | succ f ih =>
    cases f with
    | zero => rfl
    | succ g =>
      rw [findCommonAncestor_height0_step g]
      exact ih

end GetAncestors
